import Mathlib

/-!
Shallow embedding of the log_utils file-logging core (the repository's
header defining LogLevel, getFileName, getCurrentTimestamp,
logLevelToString, FileLogger, LogManager and writeLog).

Modelling conventions:
- The contents of the on-disk files are a map from path strings to the
  list of chunks appended so far; each FileLogger write appends one chunk
  (the formatted line, trailing newline included).
- Whether an std::ofstream open succeeds is external to the program, so it
  enters the model as an explicit Boolean argument at each construction
  site (true = the open succeeded and is_open() holds afterwards).
- getCurrentTimestamp depends on the wall clock and the local time zone:
  it is modelled as a function of the broken-down local time (the std::tm
  that localtime returns) and of the raw epoch time in nanoseconds.
- The environment variables read at registry construction enter as
  Option String arguments (none = the variable is unset).
-/

namespace LogUtils

/-- The LogLevel enum class (DEBUG = 0, INFO = 1, WARN = 2, ERROR = 3). -/
inductive LogLevel where
  | DEBUG
  | INFO
  | WARN
  | ERROR
deriving DecidableEq, Repr

/-- The underlying integer value of a LogLevel, which is what the
enum-class comparison `level < min_level_` compares. -/
def LogLevel.toNat : LogLevel → Nat
  | .DEBUG => 0
  | .INFO => 1
  | .WARN => 2
  | .ERROR => 3

/-- Is the character one of the search set "/\\" of `find_last_of`? -/
def isPathSep (c : Char) : Bool := c = '/' || c = '\\'

/-- Index of the last occurrence of a path separator in the character
list, i.e. `path.find_last_of("/\\")`; none plays the role of npos. -/
def findLastSep : List Char → Option Nat
  | [] => none
  | c :: cs =>
    match findLastSep cs with
    | some n => some (n + 1)
    | none => if isPathSep c then some 0 else none

/-- getFileName: the basename of a path, `path.substr(pos + 1)` after
`find_last_of("/\\")`, or the whole path when no separator occurs. -/
def getFileName (path : String) : String :=
  match findLastSep path.data with
  | none => path
  | some pos => String.mk (path.data.drop (pos + 1))

/-- logLevelToString. (The C++ default branch returning "UNKNOWN" is
unreachable for the four enum values.) -/
def logLevelToString : LogLevel → String
  | .DEBUG => "DEBUG"
  | .INFO => "INFO"
  | .WARN => "WARN"
  | .ERROR => "ERROR"

/-- The contents of the log directory: for each path, the list of chunks
appended to that file so far (missing and empty files both read []). -/
abbrev Files := String → List String

/-- Append one chunk to the file at `path`, leaving every other file
unchanged. -/
def appendChunk (fs : Files) (path chunk : String) : Files :=
  fun p => if p = path then fs p ++ [chunk] else fs p

/-- A FileLogger: its file path, its minimum level, and whether its
ofstream is open (the append-mode open at construction succeeded). -/
structure FileLogger where
  log_file_path : String
  min_level : LogLevel
  is_open : Bool
deriving DecidableEq, Repr

/-- The FileLogger constructor: records the path and minimum level;
`openOk` says whether the append-mode open succeeded. -/
def FileLogger.construct (file_path : String) (min_level : LogLevel)
    (openOk : Bool) : FileLogger :=
  { log_file_path := file_path, min_level := min_level, is_open := openOk }

/-- The one formatted line FileLogger::log streams out for a record:
`[timestamp] [LEVEL] [module] basename:line - message` plus the newline
that std::endl appends. -/
def formatLogLine (ts : String) (level : LogLevel) (module : String)
    (file : String) (line : Int) (message : String) : String :=
  "[" ++ ts ++ "] " ++ "[" ++ logLevelToString level ++ "] "
    ++ "[" ++ module ++ "] " ++ getFileName file ++ ":" ++ toString line
    ++ " - " ++ message ++ "\n"

/-- FileLogger::log: drop the record if the level is below the minimum or
the file is not open; otherwise append the formatted line to the file.
`ts` is the value getCurrentTimestamp returned during this call. -/
def FileLogger.log (lg : FileLogger) (fs : Files) (ts : String)
    (level : LogLevel) (module : String) (file : String) (line : Int)
    (message : String) : Files :=
  if level.toNat < lg.min_level.toNat ∨ lg.is_open = false then fs
  else appendChunk fs lg.log_file_path (formatLogLine ts level module file line message)

/-- The LogManager registry: the module-name → FileLogger map, the
summary logger (the shared_ptr is always set after construction), and the
base log directory. -/
structure LogManager where
  loggers : List (String × FileLogger)
  summary_logger : FileLogger
  base_log_dir : String
deriving DecidableEq, Repr

/-- initializeLogDirectory's choice of the base directory: LOG_DIR if
set, else ROS_WORKSPACE + "/logs/current" if set, else the fixed
fallback "/tmp/two_stage_int_logs". -/
def initLogDirectory (log_dir_env ros_workspace_env : Option String) : String :=
  match log_dir_env with
  | some log_dir => log_dir
  | none =>
    match ros_workspace_env with
    | some workspace => workspace ++ "/logs/current"
    | none => "/tmp/two_stage_int_logs"

/-- The LogManager constructor (which runs initializeLogDirectory): fixes
the base directory, starts with no module loggers, and eagerly builds the
summary logger at base + "/ALL_LOGS_SUMMARY.log" with minimum DEBUG.
`summaryOpenOk` says whether the summary file's open succeeded. -/
def LogManager.construct (log_dir_env ros_workspace_env : Option String)
    (summaryOpenOk : Bool) : LogManager :=
  let base_log_dir := initLogDirectory log_dir_env ros_workspace_env
  { loggers := []
    summary_logger :=
      FileLogger.construct (base_log_dir ++ "/ALL_LOGS_SUMMARY.log") LogLevel.DEBUG summaryOpenOk
    base_log_dir := base_log_dir }

/-- LogManager::getLogger: return the registered logger for the module if
present; otherwise construct one at base + "/" + module + ".log" with the
given minimum level, register it when its open succeeded, and return null
(none) when the open failed. `openOk` says whether that open, if
attempted, succeeds. -/
def LogManager.getLogger (m : LogManager) (module_name : String)
    (min_level : LogLevel) (openOk : Bool) : Option FileLogger × LogManager :=
  match m.loggers.find? (fun p => p.1 == module_name) with
  | some p => (some p.2, m)
  | none =>
    let log_file_path := m.base_log_dir ++ "/" ++ module_name ++ ".log"
    let logger := FileLogger.construct log_file_path min_level openOk
    if logger.is_open then
      (some logger, { m with loggers := (module_name, logger) :: m.loggers })
    else
      (none, m)

/-- LogManager::getSummaryLogger: the shared_ptr it returns is always
set after construction, so the model returns the logger itself. -/
def LogManager.getSummaryLogger (m : LogManager) : FileLogger :=
  m.summary_logger

/-- writeLog: fetch (or lazily create, with default minimum DEBUG) the
module's logger and write the record to it when the fetch succeeded, then
write the same record through the summary logger. The two FileLogger::log
calls sample the clock separately, hence the two timestamps. -/
def writeLog (m : LogManager) (fs : Files) (module : String)
    (level : LogLevel) (file : String) (line : Int) (message : String)
    (ts_module ts_summary : String) (openOk : Bool) : LogManager × Files :=
  let r := m.getLogger module LogLevel.DEBUG openOk
  let fs1 :=
    match r.1 with
    | some logger => logger.log fs ts_module level module file line message
    | none => fs
  let fs2 := (r.2.getSummaryLogger).log fs1 ts_summary level module file line message
  (r.2, fs2)

/-- The registry states the code can actually reach: the summary logger
sits at base + "/ALL_LOGS_SUMMARY.log" with minimum DEBUG, and every
registered module logger is open and sits at base + "/" + name + ".log"
(getLogger only registers loggers whose open succeeded). -/
def LogManager.WF (m : LogManager) : Prop :=
  m.summary_logger.min_level = LogLevel.DEBUG ∧
  m.summary_logger.log_file_path = m.base_log_dir ++ "/ALL_LOGS_SUMMARY.log" ∧
  ∀ p ∈ m.loggers,
    p.2.log_file_path = m.base_log_dir ++ "/" ++ p.1 ++ ".log" ∧ p.2.is_open = true

/-- Strings with equal character data are equal. -/
theorem string_eq_of_data_eq {a b : String} (h : a.data = b.data) : a = b := by
  cases a
  cases b
  exact congrArg String.mk h

/-- The module-log path determines the module name: base + "/" + a +
".log" collides with base + "/" + b + ".log" only when a = b. -/
theorem module_path_inj {base a b : String}
    (h : base ++ "/" ++ a ++ ".log" = base ++ "/" ++ b ++ ".log") : a = b := by
  have h2 := congrArg String.data h
  simp [String.data_append] at h2
  exact string_eq_of_data_eq h2

/-- The summary path is the module-log path of the name
ALL_LOGS_SUMMARY. -/
theorem summary_path_eq (base : String) :
    base ++ "/ALL_LOGS_SUMMARY.log" = base ++ "/" ++ "ALL_LOGS_SUMMARY" ++ ".log" := by
  apply string_eq_of_data_eq
  simp [String.data_append]

/-- A module whose name is not ALL_LOGS_SUMMARY has a module-log path
distinct from the summary path. -/
theorem module_path_ne_summary {base m : String} (hm : m ≠ "ALL_LOGS_SUMMARY") :
    base ++ "/" ++ m ++ ".log" ≠ base ++ "/ALL_LOGS_SUMMARY.log" := by
  intro h
  rw [summary_path_eq] at h
  exact hm (module_path_inj h)

/-- Reading the file appendChunk wrote to. -/
theorem appendChunk_same (fs : Files) (path chunk : String) :
    appendChunk fs path chunk path = fs path ++ [chunk] := by
  simp [appendChunk]

/-- Reading any other file after appendChunk. -/
theorem appendChunk_other {p path : String} (h : p ≠ path)
    (fs : Files) (chunk : String) : appendChunk fs path chunk p = fs p := by
  simp [appendChunk, h]

/-- FileLogger::log on an open logger with an accepted level appends the
formatted line to the logger's file. -/
theorem log_accepted {lg : FileLogger} (fs : Files) {ts : String}
    {level : LogLevel} {module file : String} {line : Int} {message : String}
    (hopen : lg.is_open = true) (hlvl : lg.min_level.toNat ≤ level.toNat) :
    lg.log fs ts level module file line message =
      appendChunk fs lg.log_file_path (formatLogLine ts level module file line message) := by
  rw [FileLogger.log, if_neg]
  push_neg
  exact ⟨by omega, by simp [hopen]⟩

/-- FileLogger::log drops the record when its level is below the
logger's minimum. -/
theorem log_below_min {lg : FileLogger} (fs : Files) {ts : String}
    {level : LogLevel} {module file : String} {line : Int} {message : String}
    (hlvl : level.toNat < lg.min_level.toNat) :
    lg.log fs ts level module file line message = fs := by
  rw [FileLogger.log, if_pos (Or.inl hlvl)]

/-- FileLogger::log drops the record when the file is not open. -/
theorem log_not_open {lg : FileLogger} (fs : Files) {ts : String}
    {level : LogLevel} {module file : String} {line : Int} {message : String}
    (hopen : lg.is_open = false) :
    lg.log fs ts level module file line message = fs := by
  rw [FileLogger.log, if_pos (Or.inr hopen)]

/-- getLogger on a registered module returns the registered logger and
leaves the registry unchanged. -/
theorem getLogger_found {m : LogManager} {name : String} {q : String × FileLogger}
    (hf : m.loggers.find? (fun p => p.1 == name) = some q)
    (lvl : LogLevel) (ok : Bool) :
    m.getLogger name lvl ok = (some q.2, m) := by
  simp [LogManager.getLogger, hf]

/-- getLogger on an unseen module whose file open fails returns null and
leaves the registry unchanged. -/
theorem getLogger_miss_fail {m : LogManager} {name : String}
    (hf : m.loggers.find? (fun p => p.1 == name) = none) (lvl : LogLevel) :
    m.getLogger name lvl false = (none, m) := by
  simp [LogManager.getLogger, hf, FileLogger.construct]

/-- getLogger on an unseen module whose file open succeeds constructs a
logger at base + "/" + name + ".log" with the given minimum level and
registers it. -/
theorem getLogger_miss_create {m : LogManager} {name : String}
    (hf : m.loggers.find? (fun p => p.1 == name) = none) (lvl : LogLevel) :
    m.getLogger name lvl true =
      (some (FileLogger.construct (m.base_log_dir ++ "/" ++ name ++ ".log") lvl true),
       { m with loggers :=
          (name, FileLogger.construct (m.base_log_dir ++ "/" ++ name ++ ".log") lvl true)
            :: m.loggers }) := by
  simp [LogManager.getLogger, hf, FileLogger.construct]

/-- In a reachable registry state, a successful getLogger returns an
open logger at base + "/" + name + ".log" and changes neither the
summary logger nor the base directory. -/
theorem getLogger_some_spec {m : LogManager} {name : String} {lvl : LogLevel}
    {ok : Bool} {lg : FileLogger} {m2 : LogManager} (hWF : m.WF)
    (h : m.getLogger name lvl ok = (some lg, m2)) :
    lg.log_file_path = m.base_log_dir ++ "/" ++ name ++ ".log" ∧
    lg.is_open = true ∧ m2.summary_logger = m.summary_logger ∧
    m2.base_log_dir = m.base_log_dir := by
  cases hf : m.loggers.find? (fun p => p.1 == name) with
  | some q =>
    rw [getLogger_found hf lvl ok] at h
    simp at h
    obtain ⟨hlg, hm⟩ := h
    have hq := List.find?_some hf
    have hqname : q.1 = name := by simpa using hq
    have hmem := List.mem_of_find?_eq_some hf
    have hwf := hWF.2.2 q hmem
    subst hm
    refine ⟨?_, ?_, rfl, rfl⟩
    · rw [← hlg, hwf.1, hqname]
    · rw [← hlg]
      exact hwf.2
  | none =>
    cases ok with
    | false =>
      rw [getLogger_miss_fail hf lvl] at h
      simp at h
    | true =>
      rw [getLogger_miss_create hf lvl] at h
      simp at h
      obtain ⟨hlg, hm⟩ := h
      subst hm
      rw [← hlg]
      exact ⟨rfl, rfl, rfl, rfl⟩

/-- The decimal digit character for n < 10 (ASCII 48 + n), as the
stream insertion of a number produces it. -/
def digitChar (n : Nat) : Char := Char.ofNat (48 + n)

/-- Decimal digit string of n, most significant first, via repeated
division by 10; the first argument is structural fuel (any fuel > n
suffices, see decDigits). -/
def decDigitsAux : Nat → Nat → List Char
  | 0, _ => []
  | fuel + 1, n =>
    if n < 10 then [digitChar n]
    else decDigitsAux fuel (n / 10) ++ [digitChar (n % 10)]

/-- Decimal digit string of n, as `operator<<` prints an unpadded
number. -/
def decDigits (n : Nat) : List Char := decDigitsAux (n + 1) n

/-- Left zero-padding to width w, as `setfill('0') << setw(w)` and the
two-digit strftime conversions pad a numeric field. -/
def padZero (w : Nat) (s : List Char) : List Char :=
  List.replicate (w - s.length) '0' ++ s

/-- The broken-down local time that localtime returns, with the fields
already carrying the values the %Y %m %d %H %M %S conversions print
(year = tm_year + 1900, mon = tm_mon + 1, minute = tm_min, sec =
tm_sec). -/
structure Tm where
  year : Nat
  mon : Nat
  mday : Nat
  hour : Nat
  minute : Nat
  sec : Nat
deriving DecidableEq, Repr

/-- getCurrentTimestamp: put_time with "%Y-%m-%d %H:%M:%S" on the
broken-down local time `t`, then "." and the epoch time cast to whole
milliseconds (duration_cast truncates) modulo 1000, zero-padded to
width 3. `now_ns` is the raw epoch time of `now` in nanoseconds. -/
def getCurrentTimestamp (t : Tm) (now_ns : Nat) : String :=
  let ms := now_ns / 1000000 % 1000
  String.mk (decDigits t.year
    ++ '-' :: padZero 2 (decDigits t.mon)
    ++ '-' :: padZero 2 (decDigits t.mday)
    ++ ' ' :: padZero 2 (decDigits t.hour)
    ++ ':' :: padZero 2 (decDigits t.minute)
    ++ ':' :: padZero 2 (decDigits t.sec)
    ++ '.' :: padZero 3 (decDigits ms))

theorem length_decDigitsAux :
    ∀ fuel n : Nat, n < 10 ^ fuel → 0 < fuel →
      (decDigitsAux fuel n).length = Nat.log 10 n + 1 := by
  intro fuel
  induction fuel with
  | zero => intro n _ h; omega
  | succ f ih =>
    intro n hn _
    by_cases h10 : n < 10
    · simp [decDigitsAux, h10, Nat.log_eq_zero_iff.2 (Or.inl h10)]
    · have hf : 0 < f := by
        by_contra hf0
        have : f = 0 := by omega
        subst this
        simp at hn
        omega
      have hdiv : n / 10 < 10 ^ f := by
        rw [Nat.div_lt_iff_lt_mul (by norm_num)]
        calc n < 10 ^ (f + 1) := hn
        _ = 10 ^ f * 10 := by rw [pow_succ]
      have hlog : 0 < Nat.log 10 n := Nat.log_pos (by norm_num) (by omega)
      have := ih (n / 10) hdiv hf
      simp [decDigitsAux, h10, this, Nat.log_div_base]
      omega

theorem length_decDigits (n : Nat) :
    (decDigits n).length = Nat.log 10 n + 1 := by
  have h1 : n < 10 ^ n := Nat.lt_pow_self (by norm_num) n
  have h2 : (10 : Nat) ^ n ≤ 10 ^ (n + 1) :=
    Nat.pow_le_pow_right (by norm_num) (by omega)
  exact length_decDigitsAux (n + 1) n (by omega) (by omega)

theorem length_decDigits_le {n k : Nat} (h : n < 10 ^ k) (hk : 0 < k) :
    (decDigits n).length ≤ k := by
  rw [length_decDigits]
  rcases Nat.eq_zero_or_pos n with h0 | h0
  · subst h0; simp [Nat.log_zero_right]; omega
  · have := Nat.log_lt_of_lt_pow (by omega) h
    omega

theorem length_padZero {w : Nat} {s : List Char} (h : s.length ≤ w) :
    (padZero w s).length = w := by
  simp [padZero]
  omega

theorem isDigit_digitChar {n : Nat} (h : n < 10) :
    (digitChar n).isDigit = true := by
  interval_cases n <;> decide

theorem decDigitsAux_digits :
    ∀ fuel n : Nat, ∀ c ∈ decDigitsAux fuel n, c.isDigit = true := by
  intro fuel
  induction fuel with
  | zero => intro n c hc; simp [decDigitsAux] at hc
  | succ f ih =>
    intro n c hc
    by_cases h10 : n < 10
    · simp [decDigitsAux, h10] at hc
      subst hc
      exact isDigit_digitChar h10
    · simp [decDigitsAux, h10] at hc
      rcases hc with hc | hc
      · exact ih (n / 10) c hc
      · subst hc
        exact isDigit_digitChar (Nat.mod_lt n (by norm_num))

theorem decDigits_digits (n : Nat) :
    ∀ c ∈ decDigits n, c.isDigit = true :=
  decDigitsAux_digits (n + 1) n

theorem padZero_digits {w : Nat} {s : List Char}
    (h : ∀ c ∈ s, c.isDigit = true) :
    ∀ c ∈ padZero w s, c.isDigit = true := by
  intro c hc
  simp [padZero] at hc
  rcases hc with ⟨_, hc⟩ | hc
  · subst hc
    decide
  · exact h c hc

theorem findLastSep_none :
    ∀ l : List Char, findLastSep l = none → ∀ c ∈ l, isPathSep c = false := by
  intro l
  induction l with
  | nil => intro _ c hc; simp at hc
  | cons a as ih =>
    intro h c hc
    rw [findLastSep] at h
    cases hfs : findLastSep as with
    | some m => rw [hfs] at h; simp at h
    | none =>
      rw [hfs] at h
      by_cases hsep : isPathSep a
      · simp [hsep] at h
      · simp at hc
        rcases hc with hc | hc
        · subst hc
          simpa using hsep
        · exact ih hfs c hc

theorem findLastSep_some :
    ∀ (l : List Char) (n : Nat), findLastSep l = some n →
      ∃ pre sep, isPathSep sep = true ∧ l = pre ++ sep :: l.drop (n + 1) ∧
        (∀ c ∈ l.drop (n + 1), isPathSep c = false) := by
  intro l
  induction l with
  | nil => intro n h; simp [findLastSep] at h
  | cons a as ih =>
    intro n h
    rw [findLastSep] at h
    cases hfs : findLastSep as with
    | some m =>
      rw [hfs] at h
      simp at h
      obtain ⟨pre, sep, hsep, hdecomp, hnone⟩ := ih m hfs
      refine ⟨a :: pre, sep, hsep, ?_, ?_⟩
      · have : (a :: as).drop (n + 1) = as.drop (m + 1) := by
          rw [show n + 1 = m + 1 + 1 by omega]
          simp
        rw [this]
        simpa using congrArg (a :: ·) hdecomp
      · intro c hc
        have : (a :: as).drop (n + 1) = as.drop (m + 1) := by
          rw [show n + 1 = m + 1 + 1 by omega]
          simp
        rw [this] at hc
        exact hnone c hc
    | none =>
      rw [hfs] at h
      by_cases hsep : isPathSep a
      · simp [hsep] at h
        refine ⟨[], a, hsep, ?_, ?_⟩
        · simp [show n = 0 from h.symm]
        · intro c hc
          rw [show n = 0 from h.symm] at hc
          simp at hc
          exact findLastSep_none as hfs c hc
      · simp [hsep] at h

/-- C8: for every source-file path string, the basename getFileName puts
in the formatted record is the suffix after the last '/' or '\'
separator, and the whole string when neither separator occurs: the path
splits as a prefix followed by the basename, the basename contains no
separator, and the prefix is either empty (no separator in the path) or
ends in a separator. -/
theorem getFileName_is_basename (p : String) :
    ∃ pre : List Char,
      p.data = pre ++ (getFileName p).data ∧
      (∀ c ∈ (getFileName p).data, isPathSep c = false) ∧
      (pre = [] ∨ ∃ pre2 sep, isPathSep sep = true ∧ pre = pre2 ++ [sep]) := by
  rcases hfs : findLastSep p.data with _ | pos
  · refine ⟨[], by rw [getFileName, hfs]; simp, ?_, Or.inl rfl⟩
    intro c hc
    rw [getFileName, hfs] at hc
    exact findLastSep_none p.data hfs c hc
  · obtain ⟨pre, sep, hsep, hdecomp, hnone⟩ := findLastSep_some p.data pos hfs
    refine ⟨pre ++ [sep], ?_, ?_, Or.inr ⟨pre, sep, hsep, rfl⟩⟩
    · rw [getFileName, hfs]
      simpa using hdecomp
    · intro c hc
      rw [getFileName, hfs] at hc
      exact hnone c hc

/-- C9: the timestamp string has the exact shape
YYYY-MM-DD HH:MM:SS.mmm — seven all-digit fields of widths 4, 2, 2, 2,
2, 2 and 3 with the literal separators in between — and the millisecond
field is the zero-padded, truncated (not rounded) sub-second part of the
epoch time. Hypotheses: the broken-down local time is in the ranges
localtime guarantees, with a four-digit year. -/
theorem getCurrentTimestamp_format (t : Tm) (now_ns : Nat)
    (hy1 : 1000 ≤ t.year) (hy2 : t.year < 10000) (hmo : t.mon ≤ 12)
    (hd : t.mday ≤ 31) (hh : t.hour < 24) (hmi : t.minute < 60)
    (hs : t.sec < 60) :
    ∃ Y Mo D H Mi S Ms : List Char,
      (getCurrentTimestamp t now_ns).data =
        Y ++ '-' :: Mo ++ '-' :: D ++ ' ' :: H ++ ':' :: Mi ++ ':' :: S
          ++ '.' :: Ms ∧
      Y.length = 4 ∧ Mo.length = 2 ∧ D.length = 2 ∧ H.length = 2 ∧
      Mi.length = 2 ∧ S.length = 2 ∧ Ms.length = 3 ∧
      (∀ c ∈ Y, c.isDigit = true) ∧ (∀ c ∈ Mo, c.isDigit = true) ∧
      (∀ c ∈ D, c.isDigit = true) ∧ (∀ c ∈ H, c.isDigit = true) ∧
      (∀ c ∈ Mi, c.isDigit = true) ∧ (∀ c ∈ S, c.isDigit = true) ∧
      (∀ c ∈ Ms, c.isDigit = true) ∧
      Ms = padZero 3 (decDigits (now_ns % 1000000000 / 1000000)) := by
  have h100 : (10 : Nat) ^ 2 = 100 := by norm_num
  have htwo : (0 : Nat) < 2 := by norm_num
  have hmso : now_ns / 1000000 % 1000 < 10 ^ 3 := by
    have := Nat.mod_lt (now_ns / 1000000) (show 0 < 1000 by norm_num)
    norm_num
    omega
  refine ⟨decDigits t.year, padZero 2 (decDigits t.mon),
    padZero 2 (decDigits t.mday), padZero 2 (decDigits t.hour),
    padZero 2 (decDigits t.minute), padZero 2 (decDigits t.sec),
    padZero 3 (decDigits (now_ns / 1000000 % 1000)), rfl,
    ?_, ?_, ?_, ?_, ?_, ?_, ?_, ?_, ?_, ?_, ?_, ?_, ?_, ?_, ?_⟩
  · have hlog : Nat.log 10 t.year = 3 :=
      Nat.log_eq_of_pow_le_of_lt_pow (by norm_num; omega) (by norm_num; omega)
    rw [length_decDigits, hlog]
  · exact length_padZero (length_decDigits_le (by omega) htwo)
  · exact length_padZero (length_decDigits_le (by omega) htwo)
  · exact length_padZero (length_decDigits_le (by omega) htwo)
  · exact length_padZero (length_decDigits_le (by omega) htwo)
  · exact length_padZero (length_decDigits_le (by omega) htwo)
  · exact length_padZero (length_decDigits_le hmso (by norm_num))
  · exact decDigits_digits t.year
  · exact padZero_digits (decDigits_digits t.mon)
  · exact padZero_digits (decDigits_digits t.mday)
  · exact padZero_digits (decDigits_digits t.hour)
  · exact padZero_digits (decDigits_digits t.minute)
  · exact padZero_digits (decDigits_digits t.sec)
  · exact padZero_digits (decDigits_digits (now_ns / 1000000 % 1000))
  · have h := Nat.mod_mul_right_div_self now_ns 1000000 1000
    norm_num at h
    rw [h]

/-- C3: once a getLogger call for module X has returned a logger, a
second getLogger call for X — with any minimum level and any open
outcome — returns that same logger and leaves the registry exactly as
the first call left it: the first successful caller creates the one
FileLogger for X and every later caller reuses it. -/
theorem getLogger_idempotent {m : LogManager} (X : String)
    (l1 l2 : LogLevel) (ok1 ok2 : Bool) {lg : FileLogger} {m1 : LogManager}
    (h : m.getLogger X l1 ok1 = (some lg, m1)) :
    m1.getLogger X l2 ok2 = (some lg, m1) := by
  cases hf : m.loggers.find? (fun p => p.1 == X) with
  | some q =>
    rw [getLogger_found hf l1 ok1] at h
    simp at h
    obtain ⟨hlg, hm⟩ := h
    subst hm
    rw [getLogger_found hf l2 ok2, hlg]
  | none =>
    cases ok1 with
    | false =>
      rw [getLogger_miss_fail hf l1] at h
      simp at h
    | true =>
      rw [getLogger_miss_create hf l1] at h
      simp at h
      obtain ⟨hlg, hm⟩ := h
      have hh : m1.loggers.find? (fun p => p.1 == X) =
          some (X, FileLogger.construct (m.base_log_dir ++ "/" ++ X ++ ".log") l1 true) := by
        rw [← hm]
        simp [List.find?]
      rw [getLogger_found hh l2 ok2, hlg]

/-- C10: when the file open for a new module fails, getLogger returns
null and leaves the registry map unchanged, so a later call for the same
module attempts creation again; when that open succeeds the call
registers and returns a logger that differs from the instance
constructed during the failed attempt. -/
theorem getLogger_fail_then_retry {m : LogManager} {name : String}
    (l1 l2 : LogLevel)
    (hf : m.loggers.find? (fun p => p.1 == name) = none) :
    m.getLogger name l1 false = (none, m) ∧
    m.getLogger name l2 true =
      (some (FileLogger.construct (m.base_log_dir ++ "/" ++ name ++ ".log") l2 true),
       { m with loggers :=
          (name, FileLogger.construct (m.base_log_dir ++ "/" ++ name ++ ".log") l2 true)
            :: m.loggers }) ∧
    FileLogger.construct (m.base_log_dir ++ "/" ++ name ++ ".log") l2 true ≠
      FileLogger.construct (m.base_log_dir ++ "/" ++ name ++ ".log") l1 false := by
  refine ⟨getLogger_miss_fail hf l1, getLogger_miss_create hf l2, ?_⟩
  simp [FileLogger.construct]

/-- C5 amended: in a reachable registry state, getLogger returns null
exactly when the module was unseen and its file open failed; every
successful call returns an open logger registered at
base + "/" + module + ".log", and the returned logger carries the given
minimum level when the call created it (a previously registered logger
keeps the minimum level of its own creation instead). -/
theorem getLogger_null_iff (m : LogManager) (name : String) (lvl : LogLevel)
    (ok : Bool) (hWF : m.WF) :
    ((m.getLogger name lvl ok).1 = none ↔
      m.loggers.find? (fun p => p.1 == name) = none ∧ ok = false) ∧
    ∀ lg, (m.getLogger name lvl ok).1 = some lg →
      lg.log_file_path = m.base_log_dir ++ "/" ++ name ++ ".log" ∧
      lg.is_open = true ∧
      (m.loggers.find? (fun p => p.1 == name) = none → lg.min_level = lvl) := by
  cases hf : m.loggers.find? (fun p => p.1 == name) with
  | some q =>
    rw [getLogger_found hf lvl ok]
    have hq := List.find?_some hf
    have hqname : q.1 = name := by simpa using hq
    have hwf := hWF.2.2 q (List.mem_of_find?_eq_some hf)
    refine ⟨by simp [hf], ?_⟩
    intro lg hlg
    simp at hlg
    subst hlg
    exact ⟨by rw [hwf.1, hqname], hwf.2, by simp [hf]⟩
  | none =>
    cases ok with
    | false =>
      rw [getLogger_miss_fail hf lvl]
      simp [hf]
    | true =>
      rw [getLogger_miss_create hf lvl]
      refine ⟨by simp, ?_⟩
      intro lg hlg
      simp at hlg
      subst hlg
      exact ⟨rfl, rfl, fun _ => rfl⟩

/-- C6: on an open file and an accepted level, FileLogger::log appends to
its own file exactly one chunk of the layout
"[timestamp] [LEVEL] [module] basename:line - message" with a trailing
newline, touches no other file, and the LEVEL text is precisely the
level's name among DEBUG, INFO, WARN and ERROR. -/
theorem log_line_layout (lg : FileLogger) (fs : Files) (ts : String)
    (level : LogLevel) (module file : String) (line : Int) (message : String)
    (hopen : lg.is_open = true) (hlvl : lg.min_level.toNat ≤ level.toNat) :
    (lg.log fs ts level module file line message) lg.log_file_path =
      fs lg.log_file_path ++
        ["[" ++ ts ++ "] " ++ "[" ++ logLevelToString level ++ "] "
          ++ "[" ++ module ++ "] " ++ getFileName file ++ ":" ++ toString line
          ++ " - " ++ message ++ "\n"] ∧
    (∀ p, p ≠ lg.log_file_path →
      (lg.log fs ts level module file line message) p = fs p) ∧
    ((logLevelToString level = "DEBUG" ↔ level = LogLevel.DEBUG) ∧
      (logLevelToString level = "INFO" ↔ level = LogLevel.INFO) ∧
      (logLevelToString level = "WARN" ↔ level = LogLevel.WARN) ∧
      (logLevelToString level = "ERROR" ↔ level = LogLevel.ERROR)) := by
  rw [log_accepted fs hopen hlvl]
  refine ⟨appendChunk_same .., ?_, ?_⟩
  · intro p hp
    exact appendChunk_other hp ..
  · cases level <;> refine ⟨?_, ?_, ?_, ?_⟩ <;> simp [logLevelToString]

/-- C7: the base directory is determined at registry construction by
exactly the precedence LOG_DIR, then ROS_WORKSPACE + "/logs/current",
then the fixed fallback "/tmp/two_stage_int_logs", and no later
operation (getLogger, writeLog) ever changes it. -/
theorem base_log_dir_fixed :
    (∀ (d : String) (w : Option String) (ok : Bool),
      (LogManager.construct (some d) w ok).base_log_dir = d) ∧
    (∀ (w : String) (ok : Bool),
      (LogManager.construct none (some w) ok).base_log_dir = w ++ "/logs/current") ∧
    (∀ ok : Bool,
      (LogManager.construct none none ok).base_log_dir = "/tmp/two_stage_int_logs") ∧
    (∀ (m : LogManager) (name : String) (lvl : LogLevel) (ok : Bool),
      ((m.getLogger name lvl ok).2).base_log_dir = m.base_log_dir) ∧
    (∀ (m : LogManager) (fs : Files) (module : String) (level : LogLevel)
      (file : String) (line : Int) (message ts1 ts2 : String) (ok : Bool),
      (writeLog m fs module level file line message ts1 ts2 ok).1.base_log_dir
        = m.base_log_dir) := by
  have hget : ∀ (m : LogManager) (name : String) (lvl : LogLevel) (ok : Bool),
      ((m.getLogger name lvl ok).2).base_log_dir = m.base_log_dir := by
    intro m name lvl ok
    cases hf : m.loggers.find? (fun p => p.1 == name) with
    | some q => rw [getLogger_found hf lvl ok]
    | none =>
      cases ok with
      | false => rw [getLogger_miss_fail hf lvl]
      | true => rw [getLogger_miss_create hf lvl]
  refine ⟨fun _ _ _ => rfl, fun _ _ => rfl, fun _ => rfl, hget, ?_⟩
  intro m fs module level file line message ts1 ts2 ok
  simp only [writeLog]
  exact hget m module LogLevel.DEBUG ok

/-- Whatever FileLogger::log does, every file keeps its previous
contents as a prefix: a write appends at most one chunk. -/
theorem log_extends (lg : FileLogger) (fs : Files) (ts : String)
    (level : LogLevel) (module file : String) (line : Int) (message : String)
    (p : String) :
    ∃ tail, lg.log fs ts level module file line message p = fs p ++ tail := by
  rw [FileLogger.log]
  by_cases hcond : level.toNat < lg.min_level.toNat ∨ lg.is_open = false
  · rw [if_pos hcond]
    exact ⟨[], by simp⟩
  · rw [if_neg hcond]
    by_cases hp : p = lg.log_file_path
    · subst hp
      exact ⟨[formatLogLine ts level module file line message], appendChunk_same ..⟩
    · exact ⟨[], by rw [appendChunk_other hp]; simp⟩

/-- C1 amended: when the module's logger opened successfully and the
level is at or above its minimum — and additionally the summary
logger's own open succeeded and the module is not named
ALL_LOGS_SUMMARY, whose module file is the summary file itself —
writeLog appends exactly one formatted line to the module's file and
exactly one to the summary file, and the two lines share the level
name, module name, basename:line and message text (only the sampled
timestamps may differ). -/
theorem writeLog_dual_append {m : LogManager} (fs : Files) {module : String}
    {level : LogLevel} (file : String) (line : Int) (message : String)
    (ts1 ts2 : String) {ok : Bool} {lg : FileLogger} {m2 : LogManager}
    (hWF : m.WF)
    (hget : m.getLogger module LogLevel.DEBUG ok = (some lg, m2))
    (hlvl : lg.min_level.toNat ≤ level.toNat)
    (hsum : m.summary_logger.is_open = true)
    (hmod : module ≠ "ALL_LOGS_SUMMARY") :
    (writeLog m fs module level file line message ts1 ts2 ok).2
        (m.base_log_dir ++ "/" ++ module ++ ".log") =
      fs (m.base_log_dir ++ "/" ++ module ++ ".log")
        ++ [formatLogLine ts1 level module file line message] ∧
    (writeLog m fs module level file line message ts1 ts2 ok).2
        (m.base_log_dir ++ "/ALL_LOGS_SUMMARY.log") =
      fs (m.base_log_dir ++ "/ALL_LOGS_SUMMARY.log")
        ++ [formatLogLine ts2 level module file line message] := by
  obtain ⟨hpath, hopen, hsummary, hbase⟩ := getLogger_some_spec hWF hget
  have hne : m.base_log_dir ++ "/" ++ module ++ ".log"
      ≠ m.base_log_dir ++ "/ALL_LOGS_SUMMARY.log" := module_path_ne_summary hmod
  simp only [writeLog, hget, LogManager.getSummaryLogger]
  rw [log_accepted fs hopen hlvl, hsummary,
    log_accepted _ hsum (by rw [hWF.1]; exact Nat.zero_le _), hWF.2.1, hpath]
  constructor
  · rw [appendChunk_other hne, appendChunk_same]
  · rw [appendChunk_same, appendChunk_other (Ne.symm hne)]

/-- C2 amended: when the record's level is strictly below the registered
module logger's minimum, writeLog leaves the module's file unchanged
while the summary logger (minimum DEBUG) still appends the line —
provided the summary logger's own open succeeded and the module is not
named ALL_LOGS_SUMMARY, whose module file is the summary file itself. -/
theorem writeLog_below_module_min {m : LogManager} (fs : Files)
    {module : String} {level : LogLevel} (file : String) (line : Int)
    (message : String) (ts1 ts2 : String) (ok : Bool) {lg : FileLogger}
    (hWF : m.WF)
    (hfound : m.loggers.find? (fun p => p.1 == module) = some (module, lg))
    (hlvl : level.toNat < lg.min_level.toNat)
    (hsum : m.summary_logger.is_open = true)
    (hmod : module ≠ "ALL_LOGS_SUMMARY") :
    (writeLog m fs module level file line message ts1 ts2 ok).2
        (m.base_log_dir ++ "/" ++ module ++ ".log") =
      fs (m.base_log_dir ++ "/" ++ module ++ ".log") ∧
    (writeLog m fs module level file line message ts1 ts2 ok).2
        (m.base_log_dir ++ "/ALL_LOGS_SUMMARY.log") =
      fs (m.base_log_dir ++ "/ALL_LOGS_SUMMARY.log")
        ++ [formatLogLine ts2 level module file line message] := by
  have hget := getLogger_found hfound LogLevel.DEBUG ok
  simp only [writeLog, hget, LogManager.getSummaryLogger]
  rw [log_below_min fs hlvl,
    log_accepted fs hsum (by rw [hWF.1]; exact Nat.zero_le _), hWF.2.1]
  exact ⟨appendChunk_other (module_path_ne_summary hmod) ..,
    appendChunk_same ..⟩

/-- C4 amended: writeLog is a total function that only ever appends —
every file keeps its previous contents as a prefix, whatever the
underlying failures — and when the module logger failed to open while
the summary logger's own open succeeded, the record still reaches the
summary file. -/
theorem writeLog_returns_and_appends (m : LogManager) (fs : Files)
    (module : String) (level : LogLevel) (file : String) (line : Int)
    (message : String) (ts1 ts2 : String) (ok : Bool) :
    (∀ p, ∃ tail,
      (writeLog m fs module level file line message ts1 ts2 ok).2 p
        = fs p ++ tail) ∧
    (m.WF → m.loggers.find? (fun p => p.1 == module) = none → ok = false →
      m.summary_logger.is_open = true →
      (writeLog m fs module level file line message ts1 ts2 ok).2
          (m.base_log_dir ++ "/ALL_LOGS_SUMMARY.log") =
        fs (m.base_log_dir ++ "/ALL_LOGS_SUMMARY.log")
          ++ [formatLogLine ts2 level module file line message]) := by
  constructor
  · intro p
    simp only [writeLog, LogManager.getSummaryLogger]
    cases hr : (m.getLogger module LogLevel.DEBUG ok).1 with
    | none =>
      exact log_extends ..
    | some lg =>
      obtain ⟨t1, ht1⟩ := log_extends lg fs ts1 level module file line message p
      obtain ⟨t2, ht2⟩ :=
        log_extends (m.getLogger module LogLevel.DEBUG ok).2.summary_logger
          (lg.log fs ts1 level module file line message) ts2 level module file
          line message p
      exact ⟨t1 ++ t2, by rw [ht2, ht1, List.append_assoc]⟩
  · intro hWF hf hok hsum
    subst hok
    simp only [writeLog, getLogger_miss_fail hf LogLevel.DEBUG,
      LogManager.getSummaryLogger]
    rw [log_accepted fs hsum (by rw [hWF.1]; exact Nat.zero_le _), hWF.2.1]
    exact appendChunk_same ..

/-- An empty log directory: every file reads back empty. -/
def emptyFiles : Files := fun _ => []

/-- A registry built with LOG_DIR = "/logs" whose summary-file open
succeeded. -/
def mgrA : LogManager := LogManager.construct (some "/logs") none true

/-- A registry built with LOG_DIR = "/logs" whose summary-file open
failed (for instance the directory could not be created). -/
def mgrB : LogManager := LogManager.construct (some "/logs") none false

/-- The logger getLogger builds for module X on mgrA. -/
def lgX : FileLogger := FileLogger.construct "/logs/X.log" LogLevel.DEBUG true

/-- mgrA after module X was registered. -/
def mgrAX : LogManager := { mgrA with loggers := [("X", lgX)] }

/-- The logger getLogger builds for module M on mgrA. -/
def lgM : FileLogger := FileLogger.construct "/logs/M.log" LogLevel.DEBUG true

/-- mgrA after module M was registered. -/
def mgrAM : LogManager := { mgrA with loggers := [("M", lgM)] }

/-- A module logger for W created with minimum level WARN. -/
def lgW : FileLogger := FileLogger.construct "/logs/W.log" LogLevel.WARN true

/-- mgrA after module W was registered with minimum WARN. -/
def mgrAW : LogManager := { mgrA with loggers := [("W", lgW)] }

/-- mgrB (summary open failed) after module W was registered with
minimum WARN: the W file was creatable once the directory existed. -/
def mgrBW : LogManager := { mgrB with loggers := [("W", lgW)] }

/-- C1 as stated is false: here the module logger for M opened
successfully and INFO is at or above its minimum DEBUG, yet the summary
file receives no line at all, because the summary logger's own open had
failed. -/
theorem writeLog_dual_append_cex :
    (mgrB.getLogger "M" LogLevel.DEBUG true).1 = some lgM ∧
    lgM.min_level.toNat ≤ LogLevel.INFO.toNat ∧
    (writeLog mgrB emptyFiles "M" LogLevel.INFO "dir/a.cpp" 3 "hello" "T1" "T2" true).2
        "/logs/ALL_LOGS_SUMMARY.log" = [] := by
  decide

/-- C2 as stated is false: W's registered minimum is WARN and the record
level is DEBUG < WARN, yet the summary file does not receive the line,
because the summary logger's own open had failed. -/
theorem writeLog_below_module_min_cex :
    mgrBW.loggers.find? (fun p => p.1 == "W") = some ("W", lgW) ∧
    LogLevel.DEBUG.toNat < lgW.min_level.toNat ∧
    (writeLog mgrBW emptyFiles "W" LogLevel.DEBUG "a.cpp" 7 "m" "T1" "T2" true).2
        "/logs/ALL_LOGS_SUMMARY.log" = [] := by
  decide

/-- C4 as stated is false: the module logger for M failed to open, and
the record does not reach the summary file either, because the summary
logger's own open had failed as well. -/
theorem writeLog_returns_and_appends_cex :
    (mgrB.getLogger "M" LogLevel.DEBUG false).1 = none ∧
    (writeLog mgrB emptyFiles "M" LogLevel.INFO "a.cpp" 3 "m" "T1" "T2" false).2
        "/logs/ALL_LOGS_SUMMARY.log" = [] := by
  decide

/-- C5 as stated is false: getLogger for the already-registered module X
with requested minimum ERROR returns the existing logger, which does not
carry the given minimum level — it keeps the DEBUG minimum of its own
creation. -/
theorem getLogger_null_iff_cex :
    (mgrAX.getLogger "X" LogLevel.ERROR true).1 = some lgX ∧
    lgX.min_level = LogLevel.DEBUG ∧
    (LogLevel.DEBUG : LogLevel) ≠ LogLevel.ERROR := by
  decide

/-- C1 amended, instantiated: on mgrA (summary open), logging INFO for
the fresh module M appends exactly one line to /logs/M.log and one to
the summary file. -/
theorem writeLog_dual_append_wit :
    mgrA.WF ∧
    mgrA.getLogger "M" LogLevel.DEBUG true = (some lgM, mgrAM) ∧
    lgM.min_level.toNat ≤ LogLevel.INFO.toNat ∧
    mgrA.summary_logger.is_open = true ∧
    "M" ≠ "ALL_LOGS_SUMMARY" ∧
    ((writeLog mgrA emptyFiles "M" LogLevel.INFO "src/a.cpp" 42 "hello" "T1" "T2" true).2
        (mgrA.base_log_dir ++ "/" ++ "M" ++ ".log") =
      emptyFiles (mgrA.base_log_dir ++ "/" ++ "M" ++ ".log")
        ++ [formatLogLine "T1" LogLevel.INFO "M" "src/a.cpp" 42 "hello"] ∧
    (writeLog mgrA emptyFiles "M" LogLevel.INFO "src/a.cpp" 42 "hello" "T1" "T2" true).2
        (mgrA.base_log_dir ++ "/ALL_LOGS_SUMMARY.log") =
      emptyFiles (mgrA.base_log_dir ++ "/ALL_LOGS_SUMMARY.log")
        ++ [formatLogLine "T2" LogLevel.INFO "M" "src/a.cpp" 42 "hello"]) :=
  ⟨by unfold LogManager.WF; decide, by decide, by decide, by decide, by decide,
    @writeLog_dual_append mgrA emptyFiles "M" LogLevel.INFO "src/a.cpp" 42
      "hello" "T1" "T2" true lgM mgrAM (by unfold LogManager.WF; decide) (by decide) (by decide)
      (by decide) (by decide)⟩

/-- C2 amended, instantiated: on mgrAW (summary open, W registered with
minimum WARN), a DEBUG record leaves /logs/W.log unchanged while the
summary file receives the line. -/
theorem writeLog_below_module_min_wit :
    mgrAW.WF ∧
    mgrAW.loggers.find? (fun p => p.1 == "W") = some ("W", lgW) ∧
    LogLevel.DEBUG.toNat < lgW.min_level.toNat ∧
    mgrAW.summary_logger.is_open = true ∧
    "W" ≠ "ALL_LOGS_SUMMARY" ∧
    ((writeLog mgrAW emptyFiles "W" LogLevel.DEBUG "a.cpp" 7 "msg" "T1" "T2" true).2
        (mgrAW.base_log_dir ++ "/" ++ "W" ++ ".log") =
      emptyFiles (mgrAW.base_log_dir ++ "/" ++ "W" ++ ".log") ∧
    (writeLog mgrAW emptyFiles "W" LogLevel.DEBUG "a.cpp" 7 "msg" "T1" "T2" true).2
        (mgrAW.base_log_dir ++ "/ALL_LOGS_SUMMARY.log") =
      emptyFiles (mgrAW.base_log_dir ++ "/ALL_LOGS_SUMMARY.log")
        ++ [formatLogLine "T2" LogLevel.DEBUG "W" "a.cpp" 7 "msg"]) :=
  ⟨by unfold LogManager.WF; decide, by decide, by decide, by decide, by decide,
    @writeLog_below_module_min mgrAW emptyFiles "W" LogLevel.DEBUG "a.cpp" 7
      "msg" "T1" "T2" true lgW (by unfold LogManager.WF; decide) (by decide) (by decide) (by decide)
      (by decide)⟩

/-- C3, instantiated: getLogger "X" on mgrA creates and registers lgX;
a second call with a different minimum level and a failing open oracle
still returns the same logger and the same registry. -/
theorem getLogger_idempotent_wit :
    mgrA.getLogger "X" LogLevel.DEBUG true = (some lgX, mgrAX) ∧
    mgrAX.getLogger "X" LogLevel.ERROR false = (some lgX, mgrAX) :=
  ⟨by decide,
    @getLogger_idempotent mgrA "X" LogLevel.DEBUG LogLevel.ERROR true false
      lgX mgrAX (by decide)⟩

/-- C4 amended, instantiated: on mgrA (summary open) with a failing open
for the fresh module M, the record still reaches the summary file. -/
theorem writeLog_returns_and_appends_wit :
    mgrA.WF ∧
    mgrA.loggers.find? (fun p => p.1 == "M") = none ∧
    mgrA.summary_logger.is_open = true ∧
    (writeLog mgrA emptyFiles "M" LogLevel.INFO "a.cpp" 3 "m" "T1" "T2" false).2
        (mgrA.base_log_dir ++ "/ALL_LOGS_SUMMARY.log") =
      emptyFiles (mgrA.base_log_dir ++ "/ALL_LOGS_SUMMARY.log")
        ++ [formatLogLine "T2" LogLevel.INFO "M" "a.cpp" 3 "m"] :=
  ⟨by unfold LogManager.WF; decide, by decide, by decide,
    (writeLog_returns_and_appends mgrA emptyFiles "M" LogLevel.INFO "a.cpp" 3
      "m" "T1" "T2" false).2 (by unfold LogManager.WF; decide) (by decide) rfl (by decide)⟩

/-- C5 amended, instantiated: on mgrAX, asking for the unseen module Z
with a failing open yields null, and the iff's right side holds. -/
theorem getLogger_null_iff_wit :
    mgrAX.WF ∧
    ((mgrAX.getLogger "Z" LogLevel.WARN false).1 = none ↔
      mgrAX.loggers.find? (fun p => p.1 == "Z") = none ∧ false = false) :=
  ⟨by unfold LogManager.WF; decide,
    (getLogger_null_iff mgrAX "Z" LogLevel.WARN false
      (by unfold LogManager.WF; decide)).1⟩

/-- C6, instantiated: an ERROR record on the open WARN-minimum logger
lgW appends exactly the formatted line to its file, leaves another file
untouched, and the LEVEL text is the level's name. -/
theorem log_line_layout_wit :
    lgW.is_open = true ∧
    lgW.min_level.toNat ≤ LogLevel.ERROR.toNat ∧
    (lgW.log emptyFiles "TS" LogLevel.ERROR "W" "p/q.cpp" 9 "oops") lgW.log_file_path =
      emptyFiles lgW.log_file_path ++
        ["[" ++ "TS" ++ "] " ++ "[" ++ logLevelToString LogLevel.ERROR ++ "] "
          ++ "[" ++ "W" ++ "] " ++ getFileName "p/q.cpp" ++ ":" ++ toString (9 : Int)
          ++ " - " ++ "oops" ++ "\n"] ∧
    (lgW.log emptyFiles "TS" LogLevel.ERROR "W" "p/q.cpp" 9 "oops") "/other" =
      emptyFiles "/other" ∧
    ((logLevelToString LogLevel.ERROR = "DEBUG" ↔ LogLevel.ERROR = LogLevel.DEBUG) ∧
      (logLevelToString LogLevel.ERROR = "INFO" ↔ LogLevel.ERROR = LogLevel.INFO) ∧
      (logLevelToString LogLevel.ERROR = "WARN" ↔ LogLevel.ERROR = LogLevel.WARN) ∧
      (logLevelToString LogLevel.ERROR = "ERROR" ↔ LogLevel.ERROR = LogLevel.ERROR)) :=
  ⟨by decide, by decide,
    (log_line_layout lgW emptyFiles "TS" LogLevel.ERROR "W" "p/q.cpp" 9 "oops"
      (by decide) (by decide)).1,
    (log_line_layout lgW emptyFiles "TS" LogLevel.ERROR "W" "p/q.cpp" 9 "oops"
      (by decide) (by decide)).2.1 "/other" (by decide),
    (log_line_layout lgW emptyFiles "TS" LogLevel.ERROR "W" "p/q.cpp" 9 "oops"
      (by decide) (by decide)).2.2⟩

/-- C9, instantiated at the local time 2026-10-12 13:14:15 and an epoch
remainder of 123456789 nanoseconds (millisecond field 123). -/
theorem getCurrentTimestamp_format_wit :
    ((1000 : Nat) ≤ 2026 ∧ (2026 : Nat) < 10000 ∧ (10 : Nat) ≤ 12 ∧
      (12 : Nat) ≤ 31 ∧ (13 : Nat) < 24 ∧ (14 : Nat) < 60 ∧ (15 : Nat) < 60) ∧
    ∃ Y Mo D H Mi S Ms : List Char,
      (getCurrentTimestamp ⟨2026, 10, 12, 13, 14, 15⟩ 123456789).data =
        Y ++ '-' :: Mo ++ '-' :: D ++ ' ' :: H ++ ':' :: Mi ++ ':' :: S
          ++ '.' :: Ms ∧
      Y.length = 4 ∧ Mo.length = 2 ∧ D.length = 2 ∧ H.length = 2 ∧
      Mi.length = 2 ∧ S.length = 2 ∧ Ms.length = 3 ∧
      (∀ c ∈ Y, c.isDigit = true) ∧ (∀ c ∈ Mo, c.isDigit = true) ∧
      (∀ c ∈ D, c.isDigit = true) ∧ (∀ c ∈ H, c.isDigit = true) ∧
      (∀ c ∈ Mi, c.isDigit = true) ∧ (∀ c ∈ S, c.isDigit = true) ∧
      (∀ c ∈ Ms, c.isDigit = true) ∧
      Ms = padZero 3 (decDigits (123456789 % 1000000000 / 1000000)) :=
  ⟨by norm_num,
    getCurrentTimestamp_format ⟨2026, 10, 12, 13, 14, 15⟩ 123456789
      (by norm_num) (by norm_num) (by norm_num) (by norm_num) (by norm_num)
      (by norm_num) (by norm_num)⟩

/-- C10, instantiated: module Y is unseen on mgrA; a failed open leaves
the registry unchanged, and the later successful call registers a
different instance. -/
theorem getLogger_fail_then_retry_wit :
    mgrA.loggers.find? (fun p => p.1 == "Y") = none ∧
    (mgrA.getLogger "Y" LogLevel.WARN false = (none, mgrA) ∧
      mgrA.getLogger "Y" LogLevel.INFO true =
        (some (FileLogger.construct (mgrA.base_log_dir ++ "/" ++ "Y" ++ ".log")
            LogLevel.INFO true),
         { mgrA with loggers :=
            ("Y", FileLogger.construct (mgrA.base_log_dir ++ "/" ++ "Y" ++ ".log")
              LogLevel.INFO true) :: mgrA.loggers }) ∧
      FileLogger.construct (mgrA.base_log_dir ++ "/" ++ "Y" ++ ".log")
          LogLevel.INFO true ≠
        FileLogger.construct (mgrA.base_log_dir ++ "/" ++ "Y" ++ ".log")
          LogLevel.WARN false) :=
  ⟨by decide,
    @getLogger_fail_then_retry mgrA "Y" LogLevel.WARN LogLevel.INFO (by decide)⟩

end LogUtils
